import Mathlib

/-!
# Hatchling: verified shallow embedding

A shallow embedding of the parts of the Hatchling runtime that the
specification's checked claims are about:

* the registry data model and the dependency resolver
  (`Hatch-Validator/dependency_resolver.py`);
* the registry updater (`Hatch-Registry/registry_updater.py`);
* the environment manager (`Hatch/package_environments.py`);
* the MCP fleet manager (`hatchling/mcp_utils/manager.py`);
* the tool-execution manager and the per-turn tool-calling loop
  (`hatchling/core/llm/tool_execution_manager.py`,
  `hatchling/core/llm/chat_session.py`,
  `hatchling/core/llm/api_manager.py`).

Python dictionaries are modelled as association lists that keep
insertion order: updating an existing key keeps its position, inserting
a fresh key appends at the end, exactly as CPython dicts behave.
-/

namespace Hatchling

/-! ## Insertion-ordered dictionaries (CPython `dict` semantics) -/

/-- `d[k] = v` on a Python dict: update in place if `k` is present,
otherwise append `(k, v)` at the end. -/
def dinsert (k : String) (v : α) : List (String × α) → List (String × α)
  | [] => [(k, v)]
  | (k', v') :: rest =>
    if k' = k then (k, v) :: rest else (k', v') :: dinsert k v rest

/-- `del d[k]` on a Python dict (no-op when `k` is absent). -/
def dremove (k : String) : List (String × α) → List (String × α)
  | [] => []
  | (k', v') :: rest =>
    if k' = k then rest else (k', v') :: dremove k rest

/-- `d.get(k)` on a Python dict. -/
def dlookup (k : String) : List (String × α) → Option α
  | [] => none
  | (k', v') :: rest =>
    if k' = k then some v' else dlookup k rest

/-- `k in d` on a Python dict. -/
def dmem (k : String) (m : List (String × α)) : Bool :=
  (dlookup k m).isSome

/-! ## Registry data model

Mirrors the JSON documents read and written by
`Hatch-Registry/registry_updater.py` and consumed by
`Hatch-Validator/dependency_resolver.py`.  A JSON field read through
`dict.get(key, "")` is modelled as a plain `String` whose absence is the
empty string; `base_version: null` and an absent `base_version` are both
`Option.none`.  The `stats` block of the registry file is not touched by
any modelled operation and is omitted. -/

/-- An entry of `dependencies_added` / `dependencies_modified`. -/
structure Dep where
  name : String
  version_constraint : String
deriving Repr, DecidableEq

/-- An entry of `python_dependencies_added` / `python_dependencies_modified`.
`package_manager` is `none` when the JSON object has no such key
(`_reconstruct_dependencies` then falls back to `"pip"` or to the
previously recorded manager). -/
structure PyDep where
  name : String
  version_constraint : String
  package_manager : Option String
deriving Repr, DecidableEq

/-- The `compatibility_changes` block of a version entry. -/
structure CompatChanges where
  hatchling : Option String
  python : Option String
deriving Repr, DecidableEq

/-- One element of a package's `versions` array (differential storage). -/
structure VersionData where
  version : String
  base_version : Option String
  dependencies_added : List Dep
  dependencies_removed : List String
  dependencies_modified : List Dep
  python_dependencies_added : List PyDep
  python_dependencies_removed : List String
  python_dependencies_modified : List PyDep
  compatibility_changes : Option CompatChanges
deriving Repr, DecidableEq

/-- A version entry with every differential list empty. -/
def mkVersion (ver : String) (base : Option String) : VersionData :=
  ⟨ver, base, [], [], [], [], [], [], none⟩

/-- One element of a repository's `packages` array. -/
structure PackageData where
  name : String
  versions : List VersionData
deriving Repr, DecidableEq

/-- One element of the registry's `repositories` array. -/
structure Repository where
  name : String
  url : String
  packages : List PackageData
  last_indexed : String
deriving Repr, DecidableEq

/-- The whole registry document. -/
structure RegistryData where
  registry_schema_version : String
  last_updated : String
  repositories : List Repository
deriving Repr, DecidableEq

/-! ## `DependencyResolver._get_version_chain`

The Python loop follows `base_version` links, appending each base to the
chain, until it reaches a version whose `base_version` is absent, `null`
or `""` (falsy), or a dangling link (logged as an error, loop `break`s).
The loop has no cycle guard, so it is given explicit `fuel` here; `none`
means the loop has not terminated within `fuel` iterations. -/

/-- One `while` iteration state: the current version and the chain built
so far (newest first, as in the Python code before the final
`chain.reverse()`). -/
def getVersionChainAux (pkg : PackageData) :
    Nat → VersionData → List VersionData → Option (List VersionData)
  | 0, _, _ => none
  | fuel + 1, current, chain =>
    match current.base_version with
    | none => some chain
    | some bv =>
      if bv = "" then some chain
      else
        match pkg.versions.find? (fun v => v.version = bv) with
        | some ver => getVersionChainAux pkg fuel ver (chain ++ [ver])
        | none => some chain

/-- `_get_version_chain`: the chain from the oldest version to
`versionData`, oldest first. -/
def getVersionChain (pkg : PackageData) (versionData : VersionData)
    (fuel : Nat) : Option (List VersionData) :=
  (getVersionChainAux pkg fuel versionData [versionData]).map List.reverse

/-! ## `DependencyResolver._reconstruct_dependencies` -/

/-- The mutable dictionaries of `_reconstruct_dependencies`:
`dependencies` maps a Hatch package name to its constraint,
`python_dependencies` maps a Python package name to
`(constraint, package_manager)`, and the two options are the
`"hatchling"` / `"python"` keys of the `compatibility` dict. -/
structure ReconState where
  dependencies : List (String × String)
  python_dependencies : List (String × (String × String))
  compat_hatchling : Option String
  compat_python : Option String
deriving Repr, DecidableEq

/-- Apply one version's differential changes, in the statement order of
the Python loop body: Hatch added / removed / modified, then Python
added / removed / modified, then compatibility changes. -/
def applyVersionDiff (st : ReconState) (v : VersionData) : ReconState :=
  let deps := v.dependencies_added.foldl
    (fun d dep => dinsert dep.name dep.version_constraint d) st.dependencies
  let deps := v.dependencies_removed.foldl (fun d n => dremove n d) deps
  let deps := v.dependencies_modified.foldl
    (fun d dep =>
      if dmem dep.name d then dinsert dep.name dep.version_constraint d else d)
    deps
  let py := v.python_dependencies_added.foldl
    (fun d dep =>
      dinsert dep.name (dep.version_constraint, dep.package_manager.getD "pip") d)
    st.python_dependencies
  let py := v.python_dependencies_removed.foldl (fun d n => dremove n d) py
  let py := v.python_dependencies_modified.foldl
    (fun d dep =>
      match dlookup dep.name d with
      | some old =>
        dinsert dep.name (dep.version_constraint, dep.package_manager.getD old.2) d
      | none => d)
    py
  let ch := match v.compatibility_changes with
    | none => (st.compat_hatchling, st.compat_python)
    | some cc =>
      (match cc.hatchling with | some h => some h | none => st.compat_hatchling,
       match cc.python with | some p => some p | none => st.compat_python)
  ⟨deps, py, ch.1, ch.2⟩

/-- The return value of `_reconstruct_dependencies` /
`get_full_package_dependencies`: the dictionaries converted back to
lists, in dictionary (insertion) order. -/
structure DepInfo where
  dependencies : List Dep
  python_dependencies : List (String × String × String)
  compat_hatchling : Option String
  compat_python : Option String
deriving Repr, DecidableEq

/-- The empty result returned when the package or version is absent. -/
def emptyDepInfo : DepInfo := ⟨[], [], none, none⟩

/-- Fold the whole chain (oldest first) and convert to lists. -/
def reconstructFromChain (chain : List VersionData) : DepInfo :=
  let st := chain.foldl applyVersionDiff ⟨[], [], none, none⟩
  ⟨st.dependencies.map (fun p => ⟨p.1, p.2⟩),
   st.python_dependencies.map (fun p => (p.1, p.2.1, p.2.2)),
   st.compat_hatchling, st.compat_python⟩

/-! ## `DependencyResolver.get_full_package_dependencies` -/

/-- The double loop over `repositories` / `packages` with its two
`break`s: the first package whose `name` matches wins, even when that
package does not contain the requested version. -/
def findPackageInRepos (pname : String) : List Repository → Option PackageData
  | [] => none
  | r :: rs =>
    match r.packages.find? (fun p => p.name = pname) with
    | some p => some p
    | none => findPackageInRepos pname rs

/-- `get_full_package_dependencies`.  `some emptyDepInfo` models the
"not found" early return; `none` means `_get_version_chain` exhausted
its fuel (the Python loop would still be running). -/
def getFullPackageDependencies (reg : RegistryData) (pname ver : String)
    (fuel : Nat) : Option DepInfo :=
  match findPackageInRepos pname reg.repositories with
  | none => some emptyDepInfo
  | some pkg =>
    match pkg.versions.find? (fun v => v.version = ver) with
    | none => some emptyDepInfo
    | some vd =>
      match getVersionChain pkg vd fuel with
      | none => none
      | some chain => some (reconstructFromChain chain)

/-! ## `DependencyResolver._find_latest_version`

The external `packaging` library is one of the collaborators the
specification leaves out of scope.  Its `SpecifierSet` constructor and
`contains` test are abstracted by a parameter
`parseSpec : String → Option (String → Bool)`: `none` models a
constructor exception (the `except:` branch), `some f` the parsed
specifier with `f` as its `contains`.  `packaging.version.parse` order
on plain dotted numeric version strings is the lexicographic order of
the numeric components, implemented below. -/

/-- Split a character stream at dots, reading each run of digits as a
decimal number (`cur` is the number being read, `acc` the completed
components). -/
def verKeyAux : List Char → Nat → List Nat → List Nat
  | [], cur, acc => acc ++ [cur]
  | ch :: rest, cur, acc =>
    if ch = '.' then verKeyAux rest 0 (acc ++ [cur])
    else verKeyAux rest (cur * 10 + (ch.toNat - 48)) acc

/-- The release key of `packaging.version.parse` for a dotted numeric
version string such as `"1.0.0"`: the list of its numeric components. -/
def verKey (s : String) : List Nat := verKeyAux s.toList 0 []

/-- Lexicographic `≤` on release keys. -/
def verKeyLe : List Nat → List Nat → Bool
  | [], _ => true
  | _ :: _, [] => false
  | a :: as, b :: bs =>
    if a < b then true else if b < a then false else verKeyLe as bs

/-- Stable insertion into a descending-sorted list: an element with a
key equal to an existing one is placed after it, as Python's stable
`list.sort(key=..., reverse=True)` keeps the original order of ties. -/
def insertVerDesc (x : String) : List String → List String
  | [] => [x]
  | y :: ys =>
    if verKeyLe (verKey x) (verKey y) then y :: insertVerDesc x ys
    else x :: y :: ys

/-- `available_versions.sort(key=lambda v: version.parse(v), reverse=True)`. -/
def sortVersionsDesc (l : List String) : List String :=
  l.foldl (fun acc x => insertVerDesc x acc) []

/-- `if not constraint or constraint.contains(ver)`. -/
def satisfiesC (c : Option (String → Bool)) (v : String) : Bool :=
  match c with
  | none => true
  | some f => f v

/-- The versions of one package entry that satisfy the constraint, in
registry order. -/
def collectSatisfying (c : Option (String → Bool)) (pkg : PackageData) :
    List String :=
  (pkg.versions.filter (fun vd => satisfiesC c vd.version)).map
    (fun vd => vd.version)

/-- The inner `for pkg in repo.get("packages", [])` loop of
`_find_latest_version`, with the accumulated `available_versions`.
`Sum.inl acc` falls through to the next repository, `Sum.inr v` is the
`return available_versions[0]` early exit taken as soon as the
accumulator is non-empty after a matching package. -/
def findLatestScanPkgs (c : Option (String → Bool)) (pname : String) :
    List PackageData → List String → Sum (List String) String
  | [], acc => Sum.inl acc
  | pkg :: rest, acc =>
    if pkg.name = pname then
      let acc2 := acc ++ collectSatisfying c pkg
      if acc2.isEmpty then findLatestScanPkgs c pname rest acc2
      else Sum.inr ((sortVersionsDesc acc2).headD "")
    else findLatestScanPkgs c pname rest acc

/-- The outer `for repo in self.registry_data.get("repositories", [])`
loop of `_find_latest_version`. -/
def findLatestScanRepos (c : Option (String → Bool)) (pname : String) :
    List Repository → List String → Option String
  | [], _ => none
  | r :: rs, acc =>
    match findLatestScanPkgs c pname r.packages acc with
    | Sum.inl acc2 => findLatestScanRepos c pname rs acc2
    | Sum.inr v => some v

/-- `_find_latest_version(package_name, version_constraint)`. -/
def findLatestVersion (parseSpec : String → Option (String → Bool))
    (reg : RegistryData) (pname vc : String) : Option String :=
  if vc = "" then findLatestScanRepos none pname reg.repositories []
  else
    match parseSpec vc with
    | none => none
    | some f => findLatestScanRepos (some f) pname reg.repositories []

/-- All package entries named `pname`, repositories in order, packages
in order within each repository. -/
def packagesNamed (pname : String) : List Repository → List PackageData
  | [] => []
  | r :: rs => r.packages.filter (fun p => p.name = pname) ++ packagesNamed pname rs

/-- First-hit selection, written from the amended description of
`_find_latest_version`: scan the package entries named `pname` in
registry order and return the semantic-version maximum of the
satisfying versions of the first entry that has any, ignoring every
later entry. -/
def firstHitLatest (c : Option (String → Bool)) (pname : String)
    (reg : RegistryData) : Option String :=
  match (packagesNamed pname reg.repositories).find?
      (fun p => !(collectSatisfying c p).isEmpty) with
  | none => none
  | some p => some ((sortVersionsDesc (collectSatisfying c p)).headD "")

/-- Latest-satisfying selection as the claim states it: collect the
satisfying versions of `pname` across all repositories, sort by
semantic version descending, return the first; `none` when no version
satisfies. -/
def claimAllReposLatest (c : Option (String → Bool)) (pname : String)
    (reg : RegistryData) : Option String :=
  let sats := (packagesNamed pname reg.repositories).foldl
    (fun acc p => acc ++ collectSatisfying c p) []
  if sats.isEmpty then none else some ((sortVersionsDesc sats).headD "")

/-! ## `DependencyResolver._resolve_dep_tree`

The mutable arguments `visited`, `resolved_deps` and `all_python_deps`
become a state record.  The DFS recursion gets explicit `fuel`; `none`
means the recursion was cut off (never the case on the finite inputs
used below).  The reconstruction inside
`get_full_package_dependencies` reuses the same fuel. -/

/-- The mutable state threaded through `_resolve_dep_tree`:
`visited` is the `"{name}@{version}"` set, `resolved` the
`resolved_deps` list, `pyDeps` the `all_python_deps` dict mapping a
Python package name to `(constraint, manager)`. -/
structure ResolveState where
  visited : List String
  resolved : List (String × String)
  pyDeps : List (String × (String × String))
deriving Repr, DecidableEq

/-- The `for py_dep in dep_info.get("python_dependencies", [])` loop:
a name already present keeps its recorded entry (the `else` branch is
`pass`, a `TODO` in the source); a fresh name is appended. -/
def collectPyDeps (acc : List (String × (String × String))) :
    List (String × String × String) → List (String × (String × String))
  | [] => acc
  | (n, vc, pm) :: rest =>
    if dmem n acc then collectPyDeps acc rest
    else collectPyDeps (dinsert n (vc, pm) acc) rest

/-- The DFS of `_resolve_dep_tree`, defunctionalised so that the
recursion is structural on the fuel: `Sum.inl (name, version)` is a call
of `_resolve_dep_tree` itself, `Sum.inr deps` the
`for dep in dep_info.get("dependencies", [])` loop over the remaining
direct dependencies (which picks the latest satisfying version and
recurses, and just logs and moves on when none is found).  Every step
consumes one unit of fuel; `none` means the fuel ran out before the DFS
finished. -/
def resolveGo (parseSpec : String → Option (String → Bool))
    (reg : RegistryData) :
    Nat → Sum (String × String) (List Dep) → ResolveState →
      Option ResolveState
  | 0, _, _ => none
  | fuel + 1, Sum.inl (pname, pver), st =>
    let pid := pname ++ "@" ++ pver
    if st.visited.contains pid then some st
    else
      match getFullPackageDependencies reg pname pver fuel with
      | none => none
      | some info =>
        resolveGo parseSpec reg fuel (Sum.inr info.dependencies)
          ⟨st.visited ++ [pid], st.resolved ++ [(pname, pver)],
           collectPyDeps st.pyDeps info.python_dependencies⟩
  | _ + 1, Sum.inr [], st => some st
  | fuel + 1, Sum.inr (d :: rest), st =>
    match findLatestVersion parseSpec reg d.name d.version_constraint with
    | some v =>
      match resolveGo parseSpec reg fuel (Sum.inl (d.name, v)) st with
      | none => none
      | some st' => resolveGo parseSpec reg fuel (Sum.inr rest) st'
    | none => resolveGo parseSpec reg fuel (Sum.inr rest) st

/-- `_resolve_dep_tree(package_name, version, visited, resolved_deps,
all_python_deps)`. -/
def resolveDepTree (parseSpec : String → Option (String → Bool))
    (reg : RegistryData) (fuel : Nat) (pname pver : String)
    (st : ResolveState) : Option ResolveState :=
  resolveGo parseSpec reg fuel (Sum.inl (pname, pver)) st

/-! ## `RegistryUpdater` (`Hatch-Registry/registry_updater.py`)

`datetime.datetime.utcnow().isoformat()` is an external clock, passed in
as the `now : String` argument.  `_save_registry` stamps
`last_updated` and writes the document to disk; its on-disk effect is
modelled separately below. -/

/-- `RegistryUpdater.add_repository(name, url)`: returns
`(False, unchanged data)` when a repository of that name exists,
otherwise appends `{name, url, packages: [], last_indexed: now}` and
saves (which stamps `last_updated := now`). -/
def addRepository (reg : RegistryData) (now name url : String) :
    Bool × RegistryData :=
  if (reg.repositories.find? (fun r => r.name = name)).isSome then
    (false, reg)
  else
    (true,
     ⟨reg.registry_schema_version, now,
      reg.repositories ++ [⟨name, url, [], now⟩]⟩)

/-! ## On-disk effect of `_save_registry` and `_save_environments`

Both functions write with `open(path, 'w')` followed by `json.dump`:
the `'w'` open truncates the target file in place and `json.dump` then
appends the serialised document in one or more chunks.  A save is
modelled by the sequence of file contents observable at each primitive
step: the old contents, the empty file right after the truncating open,
and the growing written part after each chunk. -/

/-- File contents after each write chunk, given what was already
written. -/
def writeChunkStates (written : String) : List String → List String
  | [] => []
  | c :: cs => (written ++ c) :: writeChunkStates (written ++ c) cs

/-- The sequence of on-disk contents during a truncate-then-write save
of `chunks` over a file currently holding `old`. -/
def directWriteStates (old : String) (chunks : List String) : List String :=
  old :: "" :: writeChunkStates "" chunks

/-- Write-new-then-rename atomicity: every observable on-disk state is
either the complete old document or the complete new one. -/
def atomicStates (old new : String) (states : List String) : Prop :=
  ∀ s ∈ states, s = old ∨ s = new

/-! ## `HatchEnvironmentManager` (`Hatch/package_environments.py`)

The in-memory cache `_environments` (a dict of environment name to
`{name, description, created_at, packages}`) and `_current_env_name`.
Disk persistence (`_save_environments`, the `current_env` file) mirrors
the cache and is not re-modelled; its write pattern is covered by
`directWriteStates` above. -/

/-- The value part of one `_environments` entry. -/
structure EnvData where
  description : String
  created_at : String
  packages : List String
deriving Repr, DecidableEq

/-- The manager's cached state. -/
structure EnvState where
  environments : List (String × EnvData)
  current : String
deriving Repr, DecidableEq

/-- The name filter of `create_environment`: non-empty and every
character alphanumeric or underscore. -/
def isValidEnvName (s : String) : Bool :=
  s ≠ "" && s.toList.all (fun ch => ch.isAlphanum || ch = '_')

/-- `create_environment(name, description)`. -/
def createEnvironment (st : EnvState) (name description now : String) :
    Bool × EnvState :=
  if !isValidEnvName name then (false, st)
  else if dmem name st.environments then (false, st)
  else
    (true,
     ⟨dinsert name ⟨description, now, []⟩ st.environments, st.current⟩)

/-- `set_current_environment(env_name)`. -/
def setCurrentEnvironment (st : EnvState) (name : String) : Bool × EnvState :=
  if dmem name st.environments then (true, ⟨st.environments, name⟩)
  else (false, st)

/-- `remove_environment(name)`: refuses `"default"`, then refuses a
missing name, then falls back to `default` when removing the current
environment, then deletes the entry. -/
def removeEnvironment (st : EnvState) (name : String) : Bool × EnvState :=
  if name = "default" then (false, st)
  else if !dmem name st.environments then (false, st)
  else
    let st1 := if name = st.current then (setCurrentEnvironment st "default").2
               else st
    (true, ⟨dremove name st1.environments, st1.current⟩)

/-- `add_package_to_environment`'s effect on the cache: append a package
entry to an existing environment's `packages` list. -/
def addPackageEntry (st : EnvState) (envName pkg : String) : EnvState :=
  match dlookup envName st.environments with
  | none => st
  | some ed =>
    ⟨dinsert envName ⟨ed.description, ed.created_at, ed.packages ++ [pkg]⟩
       st.environments,
     st.current⟩

/-- `remove_package_from_environment`'s effect on the cache. -/
def removePackageEntry (st : EnvState) (envName pkg : String) : EnvState :=
  match dlookup envName st.environments with
  | none => st
  | some ed =>
    ⟨dinsert envName ⟨ed.description, ed.created_at,
        ed.packages.filter (fun p => p ≠ pkg)⟩ st.environments,
     st.current⟩

/-- The environment operations that touch the manager's cached state. -/
inductive EnvOp where
  | create (name description now : String)
  | remove (name : String)
  | setCurrent (name : String)
  | addPackage (envName pkg : String)
  | removePackage (envName pkg : String)
deriving Repr, DecidableEq

/-- Run one operation (discarding its boolean status). -/
def applyEnvOp (st : EnvState) : EnvOp → EnvState
  | .create n d now => (createEnvironment st n d now).2
  | .remove n => (removeEnvironment st n).2
  | .setCurrent n => (setCurrentEnvironment st n).2
  | .addPackage e p => addPackageEntry st e p
  | .removePackage e p => removePackageEntry st e p

/-- Run a sequence of operations. -/
def applyEnvOps (st : EnvState) (ops : List EnvOp) : EnvState :=
  ops.foldl applyEnvOp st

/-! ## `MCPManager.connect_to_servers` (`hatchling/mcp_utils/manager.py`)

The operating system and the per-server `MCPClient` are external: a
candidate server is abstracted as its path plus what the environment
would answer — whether `os.path.isfile` holds, whether
`subprocess.Popen` succeeds in `start_server`, whether
`MCPClient.connect` succeeds, and the `client.tools` names the
connected client reports. -/

/-- One candidate server path together with the environment's answers. -/
structure ServerSpec where
  path : String
  isFile : Bool
  startOk : Bool
  connectOk : Bool
  tools : List String
deriving Repr, DecidableEq

/-- The manager state the claims are about: `mcp_clients` (path to the
connected client's tool list), `_tool_client_map` (tool name to owning
client's path), `server_processes` (spawned paths), and the `connected`
flag. -/
structure ManagerState where
  mcp_clients : List (String × List String)
  tool_client_map : List (String × String)
  server_processes : List String
  connected : Bool
deriving Repr, DecidableEq

/-- The freshly initialised manager. -/
def initManagerState : ManagerState := ⟨[], [], [], false⟩

/-- `for tool_name in client.tools: self._tool_client_map[tool_name] = client`. -/
def registerTools (m : List (String × String)) (p : String)
    (ts : List String) : List (String × String) :=
  ts.foldl (fun acc t => dinsert t p acc) m

/-- The body of the `for path in valid_paths` loop. -/
def connectOneServer (autoStart : Bool) (st : ManagerState)
    (s : ServerSpec) : ManagerState :=
  let st1 :=
    if autoStart && !st.server_processes.contains s.path && s.isFile && s.startOk
    then ⟨st.mcp_clients, st.tool_client_map,
          st.server_processes ++ [s.path], st.connected⟩
    else st
  if s.connectOk then
    ⟨dinsert s.path s.tools st1.mcp_clients,
     registerTools st1.tool_client_map s.path s.tools,
     st1.server_processes, st1.connected⟩
  else st1

/-- `connect_to_servers(server_paths, auto_start)`. -/
def connectToServers (st : ManagerState) (servers : List ServerSpec)
    (autoStart : Bool) : Bool × ManagerState :=
  if st.connected && !st.mcp_clients.isEmpty then (true, st)
  else
    let valid := servers.filter (fun s => s.isFile)
    if valid.isEmpty then (false, st)
    else
      let st1 := valid.foldl (connectOneServer autoStart) st
      let ok := !st1.mcp_clients.isEmpty
      (ok, ⟨st1.mcp_clients, st1.tool_client_map, st1.server_processes, ok⟩)

/-! ## Tool-calling loop
(`tool_execution_manager.py`, `api_manager.py`, `chat_session.py`)

What the LLM streams back in one turn is modelled as a list of rounds,
one round per `stream_response` call, each round the list of tool-call
ids the stream carries; every dispatched call is assumed to yield a
result (so a round produced a non-empty `tool_results` iff it executed
at least one call).  `max_working_time` is a wall-clock budget outside
the embedding; the run is modelled with `reached_time_limit` false,
which only ever allows more dispatches than a run in which the clock
expires, so it is the relevant case for the iteration-cap claim. -/

/-- `current_tool_call_iteration` plus the log of `execute_tool`
dispatches made so far in the turn. -/
structure ExecState where
  iter : Nat
  executed : List String
deriving Repr, DecidableEq

/-- `execute_tool`: the counter is incremented, then the call is
dispatched to the MCP manager. -/
def executeTool (st : ExecState) (id : String) : ExecState :=
  ⟨st.iter + 1, st.executed ++ [id]⟩

/-- The `for tool_call in current_tool_calls` loop of
`handle_streaming_tool_calls`: skip ids already in
`message_tool_calls`, otherwise record and execute.  No budget is
consulted here. -/
def streamToolCalls (st : ExecState) (seen : List String) :
    List String → ExecState × List String
  | [] => (st, seen)
  | c :: cs =>
    if seen.contains c then streamToolCalls st seen cs
    else streamToolCalls (executeTool st c) (seen ++ [c]) cs

/-- One `stream_response` round: the per-stream `message_tool_calls`
list starts empty. -/
def streamRound (st : ExecState) (round : List String) : ExecState :=
  (streamToolCalls st [] round).1

/-- `handle_tool_calling_chain`: stop when
`current_tool_call_iteration >= max_tool_call_iteration`, otherwise
stream the next round and recurse while it produced tool results. -/
def handleToolCallingChain (cap : Nat) :
    List (List String) → ExecState → ExecState
  | [], st => st
  | r :: rest, st =>
    if cap ≤ st.iter then st
    else
      let st' := streamRound st r
      if st'.executed.length ≠ st.executed.length
      then handleToolCallingChain cap rest st'
      else st'

/-- One user turn (`ChatSession.send_message`): reset the counters,
stream the initial response, and enter the chain controller when any
tool was used. -/
def runTurn (cap : Nat) (rounds : List (List String)) : ExecState :=
  match rounds with
  | [] => ⟨0, []⟩
  | r0 :: rest =>
    let st := streamRound ⟨0, []⟩ r0
    if 0 < st.iter then handleToolCallingChain cap rest st else st

/-! ## Dictionary lemmas -/

theorem dlookup_dinsert_self (k : String) (v : α) (m : List (String × α)) :
    dlookup k (dinsert k v m) = some v := by
  induction m with
  | nil => simp [dinsert, dlookup]
  | cons p rest ih =>
    obtain ⟨a, b⟩ := p
    by_cases h : a = k
    · simp [dinsert, dlookup, h]
    · simp [dinsert, dlookup, h, ih]

theorem dlookup_dinsert_ne (hk : k ≠ k') (v : α) (m : List (String × α)) :
    dlookup k (dinsert k' v m) = dlookup k m := by
  have hk' : ¬ (k' = k) := fun hh => hk hh.symm
  induction m with
  | nil => simp [dinsert, dlookup, hk']
  | cons p rest ih =>
    obtain ⟨a, b⟩ := p
    by_cases h : a = k'
    · have ha : ¬ (a = k) := by rw [h]; exact hk'
      simp [dinsert, dlookup, h, hk', ha]
    · by_cases h2 : a = k <;> simp [dinsert, dlookup, h, h2, hk, hk', ih]

theorem dmem_dinsert_of_mem (k k' : String) (v : α) (m : List (String × α))
    (h : dmem k m = true) : dmem k (dinsert k' v m) = true := by
  by_cases hk : k = k'
  · subst hk; simp [dmem, dlookup_dinsert_self]
  · simpa [dmem, dlookup_dinsert_ne hk] using h

theorem dlookup_dremove_ne (hk : k ≠ n) (m : List (String × α)) :
    dlookup k (dremove n m) = dlookup k m := by
  have hn : ¬ (n = k) := fun hh => hk hh.symm
  induction m with
  | nil => simp [dremove]
  | cons p rest ih =>
    obtain ⟨a, b⟩ := p
    by_cases h : a = n
    · have ha : ¬ (a = k) := by rw [h]; exact hn
      simp [dremove, dlookup, h, ha, hn]
    · by_cases h2 : a = k <;> simp [dremove, dlookup, h, h2, hk, hn, ih]

theorem dmem_dremove_ne (hk : k ≠ n) (m : List (String × α)) :
    dmem k (dremove n m) = dmem k m := by
  simp [dmem, dlookup_dremove_ne hk]

/-! ## Claim C6: differential reconstruction example -/

/-- `v1` of the C6 example: no base, `dependencies_added [X>=1]`. -/
def exV1 : VersionData :=
  { mkVersion "v1" none with dependencies_added := [⟨"X", ">=1"⟩] }

/-- `v2` of the C6 example: base `v1`, `dependencies_modified [X>=2]`,
`dependencies_added [Y>=1]`. -/
def exV2 : VersionData :=
  { mkVersion "v2" (some "v1") with
    dependencies_added := [⟨"Y", ">=1"⟩],
    dependencies_modified := [⟨"X", ">=2"⟩] }

/-- A registry holding package `P` with versions `v1`, `v2`. -/
def exRegP : RegistryData :=
  ⟨"1.0.0", "", [⟨"main", "url", [⟨"P", [exV1, exV2]⟩], ""⟩]⟩

/-- C6: reconstructing the full dependencies of `v2` of package `P`
(`v1`: no base, adds `X>=1`; `v2`: base `v1`, modifies `X>=2`, adds
`Y>=1`) applies the deltas oldest first and yields exactly the Hatch
dependency set `{X>=2, Y>=1}` (with no Python dependencies and no
compatibility entries recorded). -/
theorem c6_differential_reconstruction :
    getFullPackageDependencies exRegP "P" "v2" 5 =
      some ⟨[⟨"X", ">=2"⟩, ⟨"Y", ">=1"⟩], [], none, none⟩ := by
  decide

/-! ## Claim C3: a `base_version` cycle -/

/-- A version whose base is `v2`. -/
def cycV1 : VersionData := mkVersion "v1" (some "v2")

/-- A version whose base is `v1`, closing the cycle. -/
def cycV2 : VersionData := mkVersion "v2" (some "v1")

/-- The corrupted package: `v1.base_version = v2`,
`v2.base_version = v1`. -/
def cycPkg : PackageData := ⟨"P", [cycV1, cycV2]⟩

/-- A registry holding the corrupted package. -/
def cycReg : RegistryData := ⟨"1.0.0", "", [⟨"main", "url", [cycPkg], ""⟩]⟩

theorem cyc_chain_never_terminates (fuel : Nat) : ∀ chain,
    getVersionChainAux cycPkg fuel cycV1 chain = none ∧
      getVersionChainAux cycPkg fuel cycV2 chain = none := by
  induction fuel with
  | zero => intro chain; exact ⟨rfl, rfl⟩
  | succ n ih =>
    intro chain
    refine ⟨?_, ?_⟩
    · show getVersionChainAux cycPkg n cycV2 (chain ++ [cycV2]) = none
      exact (ih _).2
    · show getVersionChainAux cycPkg n cycV1 (chain ++ [cycV1]) = none
      exact (ih _).1

/-- C3: on a registry whose `base_version` links form a cycle
(`v1 ↔ v2`), reconstruction never finishes: for every amount of fuel
the fuelled embedding of the `_get_version_chain` loop is still
running, so `get_full_package_dependencies` neither returns a
dependency set nor reports an error — the Python loop diverges. -/
theorem c3_cycle_reconstruction_diverges (fuel : Nat) :
    getFullPackageDependencies cycReg "P" "v2" fuel = none := by
  show (match (getVersionChainAux cycPkg fuel cycV2 [cycV2]).map List.reverse with
        | none => none
        | some chain => some (reconstructFromChain chain)) = none
  rw [(cyc_chain_never_terminates fuel [cycV2]).2]
  rfl

/-! ## Claim C9: `add_repository` idempotence -/

theorem find?_append_of_none {p : α → Bool} {l₁ : List α}
    (h : l₁.find? p = none) (l₂ : List α) :
    (l₁ ++ l₂).find? p = l₂.find? p := by
  simp [List.find?_append, h]

/-- C9: a second `add_repository` call with an already-present name
returns the already-exists failure and leaves the registry data
untouched — `_save_registry` is not even reached, so not even the
`last_updated` stamp changes. -/
theorem c9_add_repository_idempotent (reg : RegistryData)
    (now name url now' url' : String) :
    addRepository (addRepository reg now name url).2 now' name url' =
      (false, (addRepository reg now name url).2) := by
  by_cases h : (reg.repositories.find? (fun r => r.name = name)).isSome
  · simp [addRepository, h]
  · have hnone : reg.repositories.find? (fun r => r.name = name) = none := by
      cases hc : reg.repositories.find? (fun r => r.name = name) with
      | none => rfl
      | some x => rw [hc] at h; simp at h
    simp [addRepository, h, hnone, find?_append_of_none hnone, List.find?]

/-! ## Claim C10: `connect_to_servers` short-circuits when connected -/

/-- C10: when the manager's `connected` flag is set and at least one
client is held, `connect_to_servers` returns `True` immediately: the
supplied server paths are never validated or connected, and the client
map, tool-name index, spawned-server set and flag are all left exactly
as they were. -/
theorem c10_connected_short_circuit (st : ManagerState)
    (servers : List ServerSpec) (autoStart : Bool)
    (h1 : st.connected = true) (h2 : st.mcp_clients ≠ []) :
    connectToServers st servers autoStart = (true, st) := by
  have h2' : st.mcp_clients.isEmpty = false := by simpa using h2
  simp [connectToServers, h1, h2']

/-- Witness for C10 at a concrete already-connected state. -/
theorem c10_connected_short_circuit_witness :
    connectToServers ⟨[("p", ["t"])], [("t", "p")], [], true⟩
        [⟨"q", true, true, true, ["u"]⟩] false =
      (true, ⟨[("p", ["t"])], [("t", "p")], [], true⟩) :=
  c10_connected_short_circuit _ _ _ rfl (by simp)

/-! ## Claim C7: saves are truncate-then-write, not write-then-rename -/

/-- C7 counterexample: during a save that replaces `old-doc` by
`new-doc`, the file right after the truncating `open(path, 'w')` is
empty — an observable on-disk state that is neither the complete old
document nor the complete new one, so the save is not atomic. -/
theorem c7_atomic_counterexample :
    ¬ atomicStates "old-doc" "new-doc"
        (directWriteStates "old-doc" ["new-doc"]) := by
  intro h
  have h2 := h "" (by simp [directWriteStates, writeChunkStates])
  rcases h2 with h' | h' <;> exact absurd h' (by decide)

/-- C7 amended: a save that completes does leave the complete new
document on disk, but the write is a truncate-then-write in place:
whenever the old and new documents are non-empty, the intermediate
empty file witnesses that the sequence of on-disk states is not atomic
in the write-new-then-rename sense. -/
theorem c7_truncate_write_not_atomic (old doc : String)
    (h1 : old ≠ "") (h2 : doc ≠ "") :
    (directWriteStates old [doc]).getLast? = some doc ∧
      ¬ atomicStates old doc (directWriteStates old [doc]) := by
  refine ⟨by simp [directWriteStates, writeChunkStates], ?_⟩
  intro h
  rcases h "" (by simp [directWriteStates, writeChunkStates]) with h' | h'
  · exact h1 h'.symm
  · exact h2 h'.symm

/-- Witness for C7 amended at concrete documents. -/
theorem c7_truncate_write_not_atomic_witness :
    (directWriteStates "doc-a" ["doc-b"]).getLast? = some "doc-b" ∧
      ¬ atomicStates "doc-a" "doc-b" (directWriteStates "doc-a" ["doc-b"]) :=
  c7_truncate_write_not_atomic "doc-a" "doc-b" (by decide) (by decide)

/-! ## Claim C1: the per-turn tool-call budget -/

/-- C1 counterexample: with `max_tool_call_iteration = 2` and an LLM
whose single streaming round requests three tool calls, all three are
dispatched: `handle_streaming_tool_calls` consults no budget, so the
number of `execute_tool` invocations in the turn is 3, exceeding the
cap of 2 — the claim says the third call would not be dispatched. -/
theorem c1_cap_claim_counterexample :
    (runTurn 2 [["a", "b", "c"]]).executed.length = 3 ∧
      ¬ ((runTurn 2 [["a", "b", "c"]]).executed.length ≤ 2) := by
  decide

theorem streamToolCalls_cons (st : ExecState) (seen : List String)
    (c : String) (cs : List String) :
    streamToolCalls st seen (c :: cs) =
      if seen.contains c then streamToolCalls st seen cs
      else streamToolCalls (executeTool st c) (seen ++ [c]) cs := rfl

theorem streamToolCalls_executed_mono (st : ExecState) (seen calls : List String)
    (x : String) (hx : x ∈ st.executed) :
    x ∈ (streamToolCalls st seen calls).1.executed := by
  induction calls generalizing st seen with
  | nil => simpa [streamToolCalls] using hx
  | cons c cs ih =>
    by_cases hs : seen.contains c = true
    · rw [streamToolCalls_cons, if_pos hs]
      exact ih _ _ hx
    · rw [streamToolCalls_cons, if_neg hs]
      exact ih _ _ (by simp [executeTool]; exact Or.inl hx)

/-- C1 amended: `execute_tool` increments the counter before dispatch,
and the cap is consulted only between rounds: once the counter is at or
above `max_tool_call_iteration`, `handle_tool_calling_chain` starts no
further round and dispatches nothing; but within a streaming round
every requested call not already seen in that round is dispatched
regardless of the counter, so one turn can exceed the cap. -/
theorem c1_cap_stops_rounds_not_calls (cap : Nat) (st : ExecState)
    (rounds : List (List String)) (seen calls : List String) (c : String) :
    ((executeTool st c).iter = st.iter + 1) ∧
    (cap ≤ st.iter → handleToolCallingChain cap rounds st = st) ∧
    (c ∈ calls → c ∉ seen →
      c ∈ (streamToolCalls st seen calls).1.executed) := by
  refine ⟨rfl, ?_, ?_⟩
  · intro hcap
    cases rounds with
    | nil => rfl
    | cons r rest => simp [handleToolCallingChain, hcap]
  · intro hin hnot
    induction calls generalizing st seen with
    | nil => simp at hin
    | cons c' cs ih =>
      by_cases hs : seen.contains c' = true
      · rw [streamToolCalls_cons, if_pos hs]
        rcases List.mem_cons.mp hin with h | h
        · subst h; simp at hs; exact absurd hs hnot
        · exact ih _ _ h hnot
      · rw [streamToolCalls_cons, if_neg hs]
        by_cases hc : c = c'
        · subst hc
          exact streamToolCalls_executed_mono _ _ _ _ (by simp [executeTool])
        · rcases List.mem_cons.mp hin with h | h
          · exact absurd h hc
          · exact ih _ _ h (by
              intro hmem
              rcases List.mem_append.mp hmem with hm | hm
              · exact hnot hm
              · simp at hm; exact hc hm)

/-- Witness for C1 amended at concrete inputs. -/
theorem c1_cap_stops_rounds_not_calls_witness :
    ((executeTool ⟨2, ["a", "b"]⟩ "c").iter = 2 + 1) ∧
    handleToolCallingChain 2 [["c"]] ⟨2, ["a", "b"]⟩ = ⟨2, ["a", "b"]⟩ ∧
    "c" ∈ (streamToolCalls ⟨2, ["a", "b"]⟩ [] ["c"]).1.executed :=
  ⟨(c1_cap_stops_rounds_not_calls 2 ⟨2, ["a", "b"]⟩ [["c"]] [] ["c"] "c").1,
   (c1_cap_stops_rounds_not_calls 2 ⟨2, ["a", "b"]⟩ [["c"]] [] ["c"] "c").2.1
     (by decide),
   (c1_cap_stops_rounds_not_calls 2 ⟨2, ["a", "b"]⟩ [["c"]] [] ["c"] "c").2.2
     (by decide) (by decide)⟩

/-! ## Claim C8: the default environment cannot be removed -/

theorem setCurrent_env_unchanged (st : EnvState) (x : String) :
    (setCurrentEnvironment st x).2.environments = st.environments := by
  simp only [setCurrentEnvironment]
  split <;> rfl

theorem removeEnvironment_env (st : EnvState) (n : String) :
    (removeEnvironment st n).2.environments = st.environments ∨
      (removeEnvironment st n).2.environments = dremove n st.environments := by
  by_cases h1 : n = "default"
  · left; simp [removeEnvironment, h1]
  · by_cases h2 : dmem n st.environments = true
    · right
      have h2' : (!dmem n st.environments) = false := by simp [h2]
      have henv : (if n = st.current then (setCurrentEnvironment st "default").2
          else st).environments = st.environments := by
        by_cases h3 : n = st.current
        · rw [if_pos h3, setCurrent_env_unchanged]
        · rw [if_neg h3]
      have hit : (removeEnvironment st n).2.environments =
          dremove n (if n = st.current then (setCurrentEnvironment st "default").2
                     else st).environments := by
        simp only [removeEnvironment, if_neg h1, h2', Bool.false_eq_true,
          if_false]
      rw [hit, henv]
    · left; simp [removeEnvironment, h1, h2]

theorem dmem_applyEnvOp (st : EnvState) (op : EnvOp)
    (h : dmem "default" st.environments = true) :
    dmem "default" (applyEnvOp st op).environments = true := by
  cases op with
  | create n d now =>
    simp only [applyEnvOp, createEnvironment]
    split
    · exact h
    · split
      · exact h
      · exact dmem_dinsert_of_mem _ _ _ _ h
  | remove n =>
    by_cases h1 : n = "default"
    · simpa [applyEnvOp, removeEnvironment, h1] using h
    · rcases removeEnvironment_env st n with he | he
      · show dmem "default" (removeEnvironment st n).2.environments = true
        rw [he]; exact h
      · show dmem "default" (removeEnvironment st n).2.environments = true
        have hne : "default" ≠ n := fun hh => h1 hh.symm
        rw [he, dmem_dremove_ne hne]; exact h
  | setCurrent n =>
    simpa [applyEnvOp, setCurrent_env_unchanged] using h
  | addPackage e p =>
    simp only [applyEnvOp, addPackageEntry]
    cases heq : dlookup e st.environments with
    | none => simpa [heq] using h
    | some ed => simp only [heq]; exact dmem_dinsert_of_mem _ _ _ _ h
  | removePackage e p =>
    simp only [applyEnvOp, removePackageEntry]
    cases heq : dlookup e st.environments with
    | none => simpa [heq] using h
    | some ed => simp only [heq]; exact dmem_dinsert_of_mem _ _ _ _ h

/-- C8: `remove_environment("default")` always returns `False` and
leaves the environment set and the current-environment pointer exactly
as they were; and over every sequence of environment operations
(create, remove, switch, add or remove a package) an existing
`default` environment is never removed. -/
theorem c8_default_environment_protected (st : EnvState) (ops : List EnvOp) :
    removeEnvironment st "default" = (false, st) ∧
      (dmem "default" st.environments = true →
        dmem "default" (applyEnvOps st ops).environments = true) := by
  refine ⟨by simp [removeEnvironment], ?_⟩
  intro h
  induction ops generalizing st with
  | nil => exact h
  | cons op rest ih => exact ih _ (dmem_applyEnvOp st op h)

/-- A concrete starting state holding only the default environment. -/
def envSt0 : EnvState := ⟨[("default", ⟨"Default environment", "", []⟩)], "default"⟩

/-- Witness for C8 at a concrete state and operation sequence. -/
theorem c8_default_environment_protected_witness :
    removeEnvironment envSt0 "default" = (false, envSt0) ∧
      dmem "default" (applyEnvOps envSt0
          [.create "work" "w" "t1", .setCurrent "work", .remove "default",
           .addPackage "work" "pkg", .remove "work"]).environments = true :=
  ⟨(c8_default_environment_protected envSt0 []).1,
   (c8_default_environment_protected envSt0
      [.create "work" "w" "t1", .setCurrent "work", .remove "default",
       .addPackage "work" "pkg", .remove "work"]).2 (by decide)⟩

/-! ## Claim C2: duplicate tool names across the fleet -/

theorem dlookup_registerTools_preserved (p : String) (ts : List String)
    (m : List (String × String)) (t : String) (h : dlookup t m = some p) :
    dlookup t (registerTools m p ts) = some p := by
  induction ts generalizing m with
  | nil => exact h
  | cons c cs ih =>
    show dlookup t (registerTools (dinsert c p m) p cs) = some p
    apply ih
    by_cases hc : t = c
    · subst hc; exact dlookup_dinsert_self t p m
    · rw [dlookup_dinsert_ne hc]; exact h

theorem dlookup_registerTools_mem (p : String) (ts : List String)
    (m : List (String × String)) (t : String) (h : t ∈ ts) :
    dlookup t (registerTools m p ts) = some p := by
  induction ts generalizing m with
  | nil => simp at h
  | cons c cs ih =>
    show dlookup t (registerTools (dinsert c p m) p cs) = some p
    by_cases hc : t ∈ cs
    · exact ih _ hc
    · have ht : t = c := by
        rcases List.mem_cons.mp h with h1 | h1
        · exact h1
        · exact absurd h1 hc
      subst ht
      exact dlookup_registerTools_preserved _ _ _ _ (dlookup_dinsert_self t p m)

/-- The first server of the C2 counterexample: exposes tool `t`. -/
def dupSrv1 : ServerSpec := ⟨"srv1", true, true, true, ["t"]⟩

/-- The second server of the C2 counterexample: exposes the same tool
name `t`. -/
def dupSrv2 : ServerSpec := ⟨"srv2", true, true, true, ["t"]⟩

/-- C2 counterexample: two Clients exposing the same tool name `t` both
connect; the second is registered rather than rejected, and the
tool-name index ends up mapping `t` to the *last* connected Client
(`srv2`), not to the single first owner the claim requires. -/
theorem c2_duplicate_tool_counterexample :
    (connectToServers initManagerState [dupSrv1, dupSrv2] false).2.mcp_clients
        = [("srv1", ["t"]), ("srv2", ["t"])] ∧
      dlookup "t"
          (connectToServers initManagerState [dupSrv1, dupSrv2] false).2.tool_client_map
        = some "srv2" := by
  decide

/-- C2 amended: `connect_to_servers` performs no uniqueness check at
all: when two valid servers both connect, both clients are registered
in the client map, and every tool name of the second client is mapped
to the second client in the tool-name index, silently overwriting any
identical name the first client had registered. -/
theorem c2_duplicate_overwrites (p1 p2 : String) (ts1 ts2 : List String)
    (t : String) (hne : p1 ≠ p2) (ht : t ∈ ts2) :
    (connectToServers initManagerState
        [⟨p1, true, true, true, ts1⟩, ⟨p2, true, true, true, ts2⟩]
        false).2.mcp_clients = [(p1, ts1), (p2, ts2)] ∧
      dlookup t (connectToServers initManagerState
          [⟨p1, true, true, true, ts1⟩, ⟨p2, true, true, true, ts2⟩]
          false).2.tool_client_map = some p2 := by
  have hne' : ¬ (p1 = p2) := hne
  constructor
  · simp [connectToServers, initManagerState, connectOneServer, dinsert, hne']
  · have hmap : (connectToServers initManagerState
        [⟨p1, true, true, true, ts1⟩, ⟨p2, true, true, true, ts2⟩]
        false).2.tool_client_map
          = registerTools (registerTools [] p1 ts1) p2 ts2 := by
      simp [connectToServers, initManagerState, connectOneServer]
    rw [hmap]
    exact dlookup_registerTools_mem _ _ _ _ ht

/-- Witness for C2 amended at concrete servers. -/
theorem c2_duplicate_overwrites_witness :
    (connectToServers initManagerState
        [⟨"pa", true, true, true, ["t", "u"]⟩, ⟨"pb", true, true, true, ["t"]⟩]
        false).2.mcp_clients = [("pa", ["t", "u"]), ("pb", ["t"])] ∧
      dlookup "t" (connectToServers initManagerState
          [⟨"pa", true, true, true, ["t", "u"]⟩, ⟨"pb", true, true, true, ["t"]⟩]
          false).2.tool_client_map = some "pb" :=
  c2_duplicate_overwrites "pa" "pb" ["t", "u"] ["t"] "t" (by decide) (by decide)

/-! ## Claim C4: latest-satisfying version selection -/

theorem findLatestScanPkgs_cons (c : Option (String → Bool)) (pname : String)
    (pkg : PackageData) (rest : List PackageData) (acc : List String) :
    findLatestScanPkgs c pname (pkg :: rest) acc =
      if pkg.name = pname then
        (if (acc ++ collectSatisfying c pkg).isEmpty
         then findLatestScanPkgs c pname rest (acc ++ collectSatisfying c pkg)
         else Sum.inr ((sortVersionsDesc (acc ++ collectSatisfying c pkg)).headD ""))
      else findLatestScanPkgs c pname rest acc := rfl

theorem findLatestScanRepos_cons (c : Option (String → Bool)) (pname : String)
    (r : Repository) (rs : List Repository) (acc : List String) :
    findLatestScanRepos c pname (r :: rs) acc =
      (match findLatestScanPkgs c pname r.packages acc with
       | Sum.inl acc2 => findLatestScanRepos c pname rs acc2
       | Sum.inr v => some v) := rfl

theorem findLatestScanPkgs_spec (c : Option (String → Bool)) (pname : String)
    (pkgs : List PackageData) :
    findLatestScanPkgs c pname pkgs [] =
      (match (pkgs.filter (fun p => p.name = pname)).find?
          (fun p => !(collectSatisfying c p).isEmpty) with
       | none => Sum.inl ([] : List String)
       | some p => Sum.inr ((sortVersionsDesc (collectSatisfying c p)).headD "")) := by
  induction pkgs with
  | nil => rfl
  | cons pkg rest ih =>
    by_cases hname : pkg.name = pname
    · by_cases hempty : (collectSatisfying c pkg).isEmpty = true
      · have hnil : collectSatisfying c pkg = [] := by simpa using hempty
        have hL : findLatestScanPkgs c pname (pkg :: rest) [] =
            findLatestScanPkgs c pname rest [] := by
          rw [findLatestScanPkgs_cons, if_pos hname, hnil]
          simp
        have hR : (List.filter (fun p => p.name = pname) (pkg :: rest)).find?
              (fun p => !(collectSatisfying c p).isEmpty) =
            (List.filter (fun p => p.name = pname) rest).find?
              (fun p => !(collectSatisfying c p).isEmpty) := by
          rw [List.filter_cons_of_pos (by simpa using hname),
            List.find?_cons_of_neg _ (by simp [hnil])]
        rw [hL, hR]
        exact ih
      · have hL : findLatestScanPkgs c pname (pkg :: rest) [] =
            Sum.inr ((sortVersionsDesc (collectSatisfying c pkg)).headD "") := by
          rw [findLatestScanPkgs_cons, if_pos hname]
          simp [hempty]
        have hR : (List.filter (fun p => p.name = pname) (pkg :: rest)).find?
              (fun p => !(collectSatisfying c p).isEmpty) = some pkg := by
          rw [List.filter_cons_of_pos (by simpa using hname)]
          exact List.find?_cons_of_pos _ (by simpa using hempty)
        rw [hL, hR]
    · have hL : findLatestScanPkgs c pname (pkg :: rest) [] =
          findLatestScanPkgs c pname rest [] := by
        rw [findLatestScanPkgs_cons, if_neg hname]
      have hR : (List.filter (fun p => p.name = pname) (pkg :: rest)).find?
            (fun p => !(collectSatisfying c p).isEmpty) =
          (List.filter (fun p => p.name = pname) rest).find?
            (fun p => !(collectSatisfying c p).isEmpty) := by
        rw [List.filter_cons_of_neg (by simpa using hname)]
      rw [hL, hR]
      exact ih

theorem findLatestScanRepos_spec (c : Option (String → Bool)) (pname : String)
    (repos : List Repository) :
    findLatestScanRepos c pname repos [] =
      (match (packagesNamed pname repos).find?
          (fun p => !(collectSatisfying c p).isEmpty) with
       | none => none
       | some p => some ((sortVersionsDesc (collectSatisfying c p)).headD "")) := by
  induction repos with
  | nil => rfl
  | cons r rs ih =>
    rw [findLatestScanRepos_cons, findLatestScanPkgs_spec]
    cases hf : (r.packages.filter (fun p => p.name = pname)).find?
        (fun p => !(collectSatisfying c p).isEmpty) with
    | none =>
      have hR : (packagesNamed pname (r :: rs)).find?
            (fun p => !(collectSatisfying c p).isEmpty) =
          (packagesNamed pname rs).find?
            (fun p => !(collectSatisfying c p).isEmpty) := by
        show ((r.packages.filter (fun p => p.name = pname) ++
            packagesNamed pname rs).find? (fun p => !(collectSatisfying c p).isEmpty)) = _
        rw [List.find?_append, hf, Option.none_or]
      rw [hR]
      exact ih
    | some p =>
      have hR : (packagesNamed pname (r :: rs)).find?
            (fun p => !(collectSatisfying c p).isEmpty) = some p := by
        show ((r.packages.filter (fun p => p.name = pname) ++
            packagesNamed pname rs).find? (fun p => !(collectSatisfying c p).isEmpty)) = some p
        rw [List.find?_append, hf]
        rfl
      rw [hR]

/-- The first repository of the C4 counterexample: holds `p` at version
`1.0.0` only. -/
def repoOne : Repository := ⟨"one", "u1", [⟨"p", [mkVersion "1.0.0" none]⟩], ""⟩

/-- The second repository: holds `p` at the strictly newer `2.0.0`. -/
def repoTwo : Repository := ⟨"two", "u2", [⟨"p", [mkVersion "2.0.0" none]⟩], ""⟩

/-- A registry in which package `p` appears in two repositories. -/
def twoRepoReg : RegistryData := ⟨"1.0.0", "", [repoOne, repoTwo]⟩

/-- C4 counterexample: with no constraint, `_find_latest_version` for a
package present in two repositories returns `1.0.0`, the best version
of the *first* repository only, while collecting across all
repositories as the claim states would return `2.0.0`. -/
theorem c4_all_repos_counterexample :
    findLatestVersion (fun _ => none) twoRepoReg "p" "" = some "1.0.0" ∧
      claimAllReposLatest none "p" twoRepoReg = some "2.0.0" := by
  decide

/-- C4 amended: `_find_latest_version` scans repositories in order and
returns as soon as it has any satisfying version: the result is the
semantic-version maximum of the satisfying versions of the *first*
package entry named `pname` (repositories in order, packages in order)
that has at least one, later repositories never being consulted; `none`
when no entry has a satisfying version (and also on an invalid
constraint). -/
theorem c4_first_package_entry_wins
    (parseSpec : String → Option (String → Bool))
    (reg : RegistryData) (pname : String) :
    (∀ c, findLatestScanRepos c pname reg.repositories [] =
        firstHitLatest c pname reg) ∧
      findLatestVersion parseSpec reg pname "" = firstHitLatest none pname reg := by
  have hmain : ∀ c, findLatestScanRepos c pname reg.repositories [] =
      firstHitLatest c pname reg := by
    intro c
    rw [findLatestScanRepos_spec]
    rfl
  refine ⟨hmain, ?_⟩
  show findLatestScanRepos none pname reg.repositories [] = firstHitLatest none pname reg
  exact hmain none

/-! ## Claim C5: Python-dependency conflict recording -/

theorem dlookup_collectPyDeps (pds : List (String × String × String))
    (acc : List (String × (String × String))) (n : String) (v : String × String)
    (h : dlookup n acc = some v) :
    dlookup n (collectPyDeps acc pds) = some v := by
  induction pds generalizing acc with
  | nil => exact h
  | cons d rest ih =>
    obtain ⟨n', vc, pm⟩ := d
    show dlookup n (if dmem n' acc then collectPyDeps acc rest
        else collectPyDeps (dinsert n' (vc, pm) acc) rest) = some v
    by_cases hm : dmem n' acc = true
    · rw [if_pos hm]; exact ih _ h
    · rw [if_neg hm]
      apply ih
      have hne : n ≠ n' := by
        intro hh
        subst hh
        have : dmem n acc = true := by rw [dmem, h]; rfl
        exact hm this
      rw [dlookup_dinsert_ne hne]
      exact h

theorem resolveGo_succ_inl (ps : String → Option (String → Bool))
    (reg : RegistryData) (f : Nat) (pname pver : String) (st : ResolveState) :
    resolveGo ps reg (f + 1) (Sum.inl (pname, pver)) st =
      (if st.visited.contains (pname ++ "@" ++ pver) then some st
       else
         match getFullPackageDependencies reg pname pver f with
         | none => none
         | some info =>
           resolveGo ps reg f (Sum.inr info.dependencies)
             ⟨st.visited ++ [pname ++ "@" ++ pver], st.resolved ++ [(pname, pver)],
              collectPyDeps st.pyDeps info.python_dependencies⟩) := rfl

theorem resolveGo_succ_inr_nil (ps : String → Option (String → Bool))
    (reg : RegistryData) (f : Nat) (st : ResolveState) :
    resolveGo ps reg (f + 1) (Sum.inr []) st = some st := rfl

theorem resolveGo_succ_inr_cons (ps : String → Option (String → Bool))
    (reg : RegistryData) (f : Nat) (d : Dep) (rest : List Dep)
    (st : ResolveState) :
    resolveGo ps reg (f + 1) (Sum.inr (d :: rest)) st =
      (match findLatestVersion ps reg d.name d.version_constraint with
       | some v =>
         (match resolveGo ps reg f (Sum.inl (d.name, v)) st with
          | none => none
          | some st' => resolveGo ps reg f (Sum.inr rest) st')
       | none => resolveGo ps reg f (Sum.inr rest) st) := rfl

theorem resolveGo_preserves_pyDep (ps : String → Option (String → Bool))
    (reg : RegistryData) (n : String) (v : String × String) :
    ∀ (fuel : Nat) (task : Sum (String × String) (List Dep))
      (st st' : ResolveState),
      resolveGo ps reg fuel task st = some st' →
      dlookup n st.pyDeps = some v → dlookup n st'.pyDeps = some v := by
  intro fuel
  induction fuel with
  | zero =>
    intro task st st' hrun
    simp [resolveGo] at hrun
  | succ f ih =>
    intro task st st' hrun hl
    rcases task with ⟨pname, pver⟩ | ds
    · rw [resolveGo_succ_inl] at hrun
      split at hrun
      · rw [← Option.some.inj hrun]; exact hl
      · split at hrun
        · exact absurd hrun (by simp)
        · exact ih _ _ _ hrun (dlookup_collectPyDeps _ _ _ _ hl)
    · cases ds with
      | nil =>
        rw [resolveGo_succ_inr_nil] at hrun
        rw [← Option.some.inj hrun]; exact hl
      | cons d rest =>
        rw [resolveGo_succ_inr_cons] at hrun
        split at hrun
        · split at hrun
          · exact absurd hrun (by simp)
          · rename_i st1 hstep
            exact ih _ _ _ hrun (ih _ _ _ hstep hl)
        · exact ih _ _ _ hrun hl

/-- Package `A` of the C5 counterexample: depends on `B` and declares
the Python dependency `X>=1`. -/
def pyVerA : VersionData :=
  { mkVersion "1.0.0" none with
    dependencies_added := [⟨"B", ""⟩],
    python_dependencies_added := [⟨"X", ">=1", none⟩] }

/-- Package `B` of the C5 counterexample: declares the same Python
dependency with the differing constraint `X>=2`. -/
def pyVerB : VersionData :=
  { mkVersion "1.0.0" none with
    python_dependencies_added := [⟨"X", ">=2", none⟩] }

/-- A registry with `A` (depending on `B`) and `B`. -/
def pyReg : RegistryData :=
  ⟨"1.0.0", "", [⟨"main", "u", [⟨"A", [pyVerA]⟩, ⟨"B", [pyVerB]⟩], ""⟩]⟩

/-- C5 counterexample: resolving from `A` visits `A` then `B`; both
declare Python dependency `X` with differing constraints, `A` first
(`>=1`) and `B` last (`>=2`).  The recorded constraint is `>=1` — the
*first* writer — not the last writer's `>=2` as the claim states. -/
theorem c5_last_writer_counterexample :
    (resolveDepTree (fun _ => none) pyReg 6 "A" "1.0.0" ⟨[], [], []⟩).map
        (fun st => dlookup "X" st.pyDeps) = some (some (">=1", "pip")) ∧
      (resolveDepTree (fun _ => none) pyReg 6 "A" "1.0.0" ⟨[], [], []⟩).map
        (fun st => dlookup "X" st.pyDeps) ≠ some (some (">=2", "pip")) := by
  decide

/-- C5 amended: during transitive resolution Python dependencies are
collected into a dict keyed by package name, and a conflict between
differing constraints is recorded *first*-writer-wins: once a name has
an entry, no later declaration of the same name changes it — any entry
present in the state survives the whole DFS unchanged. -/
theorem c5_first_writer_wins (ps : String → Option (String → Bool))
    (reg : RegistryData) (fuel : Nat) (pname pver : String)
    (st st' : ResolveState) (n : String) (v : String × String)
    (hrun : resolveDepTree ps reg fuel pname pver st = some st')
    (hl : dlookup n st.pyDeps = some v) :
    dlookup n st'.pyDeps = some v :=
  resolveGo_preserves_pyDep ps reg n v fuel (Sum.inl (pname, pver)) st st' hrun hl

/-- Witness for C5 amended: an entry for `Y` recorded before the DFS
from `A` is still recorded, unchanged, afterwards. -/
theorem c5_first_writer_wins_witness :
    dlookup "Y" (⟨["A@1.0.0", "B@1.0.0"],
        [("A", "1.0.0"), ("B", "1.0.0")],
        [("Y", ("c0", "pip")), ("X", (">=1", "pip"))]⟩ : ResolveState).pyDeps
      = some ("c0", "pip") :=
  c5_first_writer_wins (fun _ => none) pyReg 6 "A" "1.0.0"
    ⟨[], [], [("Y", ("c0", "pip"))]⟩
    ⟨["A@1.0.0", "B@1.0.0"], [("A", "1.0.0"), ("B", "1.0.0")],
     [("Y", ("c0", "pip")), ("X", (">=1", "pip"))]⟩
    "Y" ("c0", "pip") (by decide) (by decide)

end Hatchling
